import Mathlib

/-!
# Verification of the mermaid-mcp-server rendering-dispatch and selection pipeline

Shallow embedding of the decision logic of the `mermaid-mcp-server`
repository:

* `server.ts` — diagram-type detection (`detectDiagramType`), coarse syntax
  validation (`validateMermaidSyntax`), and the structured results of the
  `renderMermaidDiagram` and `validateMermaidSyntax` MCP tools;
* `src/components/MermaidRenderer.tsx` — the render effect's stale-result
  guard (a `cancelled` flag captured per effect instance) and the
  selection-highlight effect;
* the `DragSelector` component — threshold, overlap test and deduplication
  of the drag-selection gesture.

JavaScript string primitives (`trim`, `split("\n")[0]`, `toLowerCase`,
`startsWith`) are modelled over `List Char` by structurally recursive
functions so that every definition evaluates by kernel reduction.
-/

set_option autoImplicit false

namespace MermaidMcp

/-! ## JavaScript string primitives over `List Char` -/

/-- Whitespace characters removed by JavaScript `String.prototype.trim`
(restricted to the ASCII range that can occur in diagram markup). -/
def isJsSpace (c : Char) : Bool :=
  c == ' ' || c == '\t' || c == '\n' || c == '\r' || c == '\x0b' || c == '\x0c'

/-- JavaScript `s.trim()` on the character list: drop whitespace from both
ends. -/
def jsTrim (l : List Char) : List Char :=
  ((l.dropWhile isJsSpace).reverse.dropWhile isJsSpace).reverse

/-- JavaScript `s.split("\n")[0]` on the character list: everything before
the first newline (the whole string when no newline occurs). -/
def firstLineOf (l : List Char) : List Char :=
  l.takeWhile (fun c => !(c == '\n'))

/-- JavaScript `s.toLowerCase()` for ASCII input. -/
def jsToLower (l : List Char) : List Char :=
  l.map Char.toLower

/-- `leadsWith pat l` is JavaScript `l.startsWith(pat)`. -/
def leadsWith : List Char → List Char → Bool
  | [], _ => true
  | _ :: _, [] => false
  | p :: ps, c :: cs => p == c && leadsWith ps cs

/-- `hasSubList pat l` holds when `pat` occurs contiguously inside `l`
(JavaScript `l.includes(pat)`). -/
def hasSubList (pat : List Char) : List Char → Bool
  | [] => pat.isEmpty
  | c :: cs => leadsWith pat (c :: cs) || hasSubList pat cs

/-! ## `server.ts` -/

/-- `BEAUTIFUL_MERMAID_TYPES` from `server.ts`: diagram types that the
beautiful-mermaid renderer supports. -/
def BEAUTIFUL_MERMAID_TYPES : List String :=
  ["flowchart", "flowchart-v2", "graph", "stateDiagram", "stateDiagram-v2",
   "sequenceDiagram", "classDiagram", "erDiagram"]

/-- The normalised first line that `server.ts` bases its decisions on:
`markup.trim().split("\n")[0].trim().toLowerCase()`. -/
def normalisedFirstLine (markup : String) : List Char :=
  jsToLower (jsTrim (firstLineOf (jsTrim markup.data)))

/-- The ladder of `firstLine.startsWith(...)` checks of `detectDiagramType`
in `server.ts`, in source order, over the normalised first line. -/
def detectFromFirstLine (firstLine : List Char) : String :=
  if leadsWith "flowchart".data firstLine || leadsWith "graph".data firstLine then
    "flowchart"
  else if leadsWith "sequencediagram".data firstLine then "sequenceDiagram"
  else if leadsWith "classdiagram".data firstLine then "classDiagram"
  else if leadsWith "statediagram".data firstLine then "stateDiagram"
  else if leadsWith "erdiagram".data firstLine then "erDiagram"
  else if leadsWith "gantt".data firstLine then "gantt"
  else if leadsWith "pie".data firstLine then "pie"
  else if leadsWith "gitgraph".data firstLine then "gitGraph"
  else if leadsWith "mindmap".data firstLine then "mindmap"
  else if leadsWith "timeline".data firstLine then "timeline"
  else if leadsWith "journey".data firstLine then "journey"
  else if leadsWith "quadrantchart".data firstLine then "quadrantChart"
  else if leadsWith "requirementdiagram".data firstLine then "requirementDiagram"
  else if leadsWith "c4context".data firstLine || leadsWith "c4container".data firstLine ||
      leadsWith "c4component".data firstLine || leadsWith "c4dynamic".data firstLine ||
      leadsWith "c4deployment".data firstLine then "c4"
  else if leadsWith "sankey".data firstLine then "sankey"
  else if leadsWith "xychart".data firstLine then "xyChart"
  else if leadsWith "block".data firstLine then "block"
  else if leadsWith "packet".data firstLine then "packet"
  else if leadsWith "kanban".data firstLine then "kanban"
  else if leadsWith "architecture".data firstLine then "architecture"
  else "unknown"

/-- `detectDiagramType` from `server.ts`. -/
def detectDiagramType (markup : String) : String :=
  detectFromFirstLine (normalisedFirstLine markup)

/-- `KNOWN_DIAGRAM_KEYWORDS` from `server.ts`, in source order. -/
def KNOWN_DIAGRAM_KEYWORDS : List String :=
  ["flowchart", "graph", "sequencediagram", "classdiagram",
   "statediagram", "erdiagram", "gantt", "pie", "gitgraph",
   "mindmap", "timeline", "journey", "quadrantchart",
   "requirementdiagram", "c4context", "c4container", "c4component",
   "c4dynamic", "c4deployment", "sankey", "xychart", "block",
   "packet", "kanban", "architecture"]

/-- The tag set `detectDiagramType` draws from (the twenty diagram tags of
the source ladder plus the sentinel `"unknown"`). -/
def KNOWN_DIAGRAM_TAGS : List String :=
  ["flowchart", "sequenceDiagram", "classDiagram", "stateDiagram", "erDiagram",
   "gantt", "pie", "gitGraph", "mindmap", "timeline", "journey",
   "quadrantChart", "requirementDiagram", "c4", "sankey", "xyChart",
   "block", "packet", "kanban", "architecture", "unknown"]

/-- `validateMermaidSyntax` from `server.ts`: returns `some message` on
rejection (`"Empty diagram markup"` for blank input, the unrecognised-type
message otherwise), `none` when the first line starts with a known
keyword. -/
def validateMermaidSyntax (markup : String) : Option String :=
  let trimmed := jsTrim markup.data
  if trimmed.isEmpty then
    some "Empty diagram markup"
  else
    let firstLine := jsToLower (jsTrim (firstLineOf trimmed))
    let recognised := KNOWN_DIAGRAM_KEYWORDS.any fun kw => leadsWith kw.data firstLine
    if recognised then
      none
    else
      some ("Unrecognised diagram type. First line must start with a diagram keyword " ++
        "(e.g. flowchart, sequenceDiagram, classDiagram, erDiagram, gantt, …). " ++
        "Got: \"" ++ String.mk (jsTrim (firstLineOf trimmed)) ++ "\"")

/-- Structured content returned by the `renderMermaidDiagram` tool
(`MermaidToolResult` in `src/types.ts`). -/
structure MermaidToolResult where
  markup : String
  title : String
  syntaxError : Option String
  diagramType : String
  renderer : String
  deriving DecidableEq, Repr

/-- The `renderMermaidDiagram` tool handler from `server.ts`, as the pair
(isError flag, structured content). -/
def renderMermaidDiagramTool (markup : String) (title : Option String) :
    Bool × MermaidToolResult :=
  let diagramType := detectDiagramType markup
  let useBeautiful := BEAUTIFUL_MERMAID_TYPES.contains diagramType
  match validateMermaidSyntax markup with
  | some syntaxError =>
    (true,
     { markup := markup, title := title.getD "", syntaxError := some syntaxError,
       diagramType := diagramType, renderer := "none" })
  | none =>
    (false,
     { markup := markup, title := title.getD "", syntaxError := none,
       diagramType := diagramType,
       renderer := if useBeautiful then "beautiful-mermaid" else "mermaid" })

/-- Structured content returned by the `validateMermaidSyntax` tool
(`ValidationResult` in `src/types.ts`). -/
structure ValidationResult where
  valid : Bool
  error : Option String
  diagramType : String
  renderer : String
  deriving DecidableEq, Repr

/-- The `validateMermaidSyntax` tool handler from `server.ts`. -/
def validateMermaidSyntaxTool (markup : String) : ValidationResult :=
  let syntaxError := validateMermaidSyntax markup
  let diagramType := detectDiagramType markup
  let useBeautiful := BEAUTIFUL_MERMAID_TYPES.contains diagramType
  { valid := syntaxError.isNone, error := syntaxError, diagramType := diagramType,
    renderer := if useBeautiful then "beautiful-mermaid" else "mermaid" }

/-! ## `MermaidRenderer.tsx` — render effect with stale-result guard

Each run of the render effect captures a fresh `let cancelled = false`;
the effect cleanup (executed when a new request arrives) sets the captured
flag to `true`, and the flags are never reset, so an effect instance `i`
is cancelled exactly when a later instance has started, i.e. when `i` is
no longer the latest request.  `rstep` is the induced step function:
issuing a request bumps the latest index and resets the error (the
synchronous `setError(null)` at the top of `render()`); a resolution
applies its outcome to the container or the error state only when its
index is still the latest. -/

/-- Outcome of one asynchronous render: the produced SVG text, or the
message of the exception thrown by the engine. -/
inductive ROutcome where
  | ok (svg : String)
  | fail (msg : String)
  deriving DecidableEq, Repr

/-- Visible state of the `MermaidRenderer` component: index of the most
recent render request, the container's installed markup
(`container.innerHTML`), and the `error` React state. -/
structure RenderState where
  latest : Nat
  content : Option String
  errorMsg : Option String
  deriving DecidableEq, Repr

/-- Events of the render effect: a new request (effect re-run after a
dependency change), or the arrival of the result of request `i`. -/
inductive REvent where
  | request
  | resolve (i : Nat) (o : ROutcome)
  deriving DecidableEq, Repr

/-- One step of the render effect.  On `request`, the previous effect's
cleanup sets its captured `cancelled` flag (so only the new index
`latest + 1` is live) and the new `render()` synchronously clears the
error.  On `resolve i o`, the `if (!cancelled)` guard in the source admits
the outcome only when `i` is still the latest request. -/
def rstep (s : RenderState) (e : REvent) : RenderState :=
  match e with
  | .request => { latest := s.latest + 1, content := s.content, errorMsg := none }
  | .resolve i o =>
    if i = s.latest then
      match o with
      | .ok svg => { s with content := some svg }
      | .fail msg => { s with errorMsg := some msg }
    else s

/-! ## `MermaidRenderer.tsx` — selection-highlight effect -/

/-- An element of the rendered visual tree as seen by the highlight
effect: its DOM id and whether its class list contains
`"mermaid-selected"`. -/
structure TreeEl where
  id : String
  selectedClass : Bool
  deriving DecidableEq, Repr

/-- Diagram element selected via drag selection (`SelectedElement` in
`src/types.ts`); `kind` is the `type` field's value. -/
inductive ElemKind where
  | node
  | edge
  | label
  | unknown
  deriving DecidableEq, Repr

/-- `SelectedElement` from `src/types.ts`. -/
structure SelectedElement where
  id : String
  label : String
  kind : ElemKind
  deriving DecidableEq, Repr

/-- The clear phase of the highlight effect:
`querySelectorAll(".mermaid-selected")` + `classList.remove`. -/
def clearHighlights (t : List TreeEl) : List TreeEl :=
  t.map fun e => { e with selectedClass := false }

/-- `container.querySelector("#" + id)` + `classList.add`: mark the first
element with the given id, when one exists (a missing id changes
nothing). -/
def addHighlight : List TreeEl → String → List TreeEl
  | [], _ => []
  | e :: rest, i =>
    if e.id = i then { e with selectedClass := true } :: rest
    else e :: addHighlight rest i

/-- The selection-highlight effect of `MermaidRenderer.tsx`: clear every
previously applied `mermaid-selected` class, then add it back for each
selected element's id found in the tree. -/
def syncHighlights (t : List TreeEl) (sels : List SelectedElement) : List TreeEl :=
  sels.foldl (fun acc sel => addHighlight acc sel.id) (clearHighlights t)

/-! ## `DragSelector.tsx` — drag-selection gesture

Coordinates are rationals (client-space pixel positions).  A candidate
element carries the data the `handleMouseUp` loop reads from the DOM: its
id, its `getBoundingClientRect()` box, and the values `extractLabel` and
`classifyElement` would produce for it (both are DOM probes outside the
decision logic under verification, so they enter the model as data). -/

/-- A client-space rectangle (`getBoundingClientRect` / the computed
selection bounds). -/
structure ClientRect where
  left : ℚ
  top : ℚ
  right : ℚ
  bottom : ℚ
  deriving DecidableEq, Repr

/-- The in-progress drag state (`DragRect` in the source). -/
structure DragRect where
  startX : ℚ
  startY : ℚ
  currentX : ℚ
  currentY : ℚ
  deriving DecidableEq, Repr

/-- A candidate SVG element returned by the `querySelectorAll` marker
queries. -/
structure SvgCandidate where
  id : String
  rect : ClientRect
  label : String
  kind : ElemKind
  deriving DecidableEq, Repr

/-- The intersection test of the `handleMouseUp` loop:
`elRect.left < bounds.right && elRect.right > bounds.left &&
elRect.top < bounds.bottom && elRect.bottom > bounds.top`. -/
def overlapsRect (elRect bounds : ClientRect) : Bool :=
  decide (elRect.left < bounds.right) && decide (elRect.right > bounds.left) &&
  decide (elRect.top < bounds.bottom) && decide (elRect.bottom > bounds.top)

/-- The `svgElements.forEach` loop of `handleMouseUp`: keep a candidate
when it overlaps the bounds, has a non-empty id, and its id has not been
seen, threading the `seenIds` set. -/
def collectSelected (bounds : ClientRect) :
    List SvgCandidate → List String → List SelectedElement
  | [], _ => []
  | el :: rest, seen =>
    if overlapsRect el.rect bounds && !(el.id == "") && !(seen.contains el.id) then
      { id := el.id, label := el.label, kind := el.kind } ::
        collectSelected bounds rest (el.id :: seen)
    else
      collectSelected bounds rest seen

/-- `handleMouseUp` from `DragSelector.tsx` (the path where a drag is in
progress and the overlay exists): returns `none` when no
`onSelectionChange` callback is issued (the sub-threshold early return),
and `some sel` when the callback fires with `sel`.  `overlay` is the
overlay's `getBoundingClientRect()`, used to translate the drag rectangle
into client space. -/
def handleMouseUp (drag : DragRect) (overlay : ClientRect)
    (candidates : List SvgCandidate) : Option (List SelectedElement) :=
  let x1 := min drag.startX drag.currentX
  let y1 := min drag.startY drag.currentY
  let x2 := max drag.startX drag.currentX
  let y2 := max drag.startY drag.currentY
  if |x2 - x1| < 5 ∧ |y2 - y1| < 5 then
    none
  else
    let bounds : ClientRect :=
      { left := overlay.left + x1, top := overlay.top + y1,
        right := overlay.left + x2, bottom := overlay.top + y2 }
    some (collectSelected bounds candidates [])

/-! ## Theorems -/

/-- Membership in a list is preserved by `if`: both branches suffice. -/
theorem mem_ite {α : Type} {s : List α} {c : Prop} [Decidable c] {a b : α}
    (ha : a ∈ s) (hb : b ∈ s) : (if c then a else b) ∈ s := by
  by_cases h : c
  · rwa [if_pos h]
  · rwa [if_neg h]

/-- C3: `detectDiagramType` is a pure total function over all text inputs:
it is a Lean function (hence terminating on every input), its value always
lies in the fixed tag set (the twenty diagram tags plus the sentinel
`"unknown"`), and `detectDiagramType "" = "unknown"`. -/
theorem detectDiagramType_total_in_tags (markup : String) :
    detectDiagramType markup ∈ KNOWN_DIAGRAM_TAGS ∧ detectDiagramType "" = "unknown" := by
  refine ⟨?_, by decide⟩
  unfold detectDiagramType detectFromFirstLine
  repeat' refine mem_ite (by decide) ?_
  decide

/-- C10: the `validateMermaidSyntax` tool's structured result always
carries the renderer its detected diagram type maps to — `"beautiful-mermaid"`
when the type is in the beautiful-mermaid capability set, `"mermaid"`
otherwise — and never `"none"`, also when the markup is invalid. -/
theorem validateTool_renderer_never_none (markup : String) :
    (validateMermaidSyntaxTool markup).renderer =
      (if detectDiagramType markup ∈ BEAUTIFUL_MERMAID_TYPES
       then "beautiful-mermaid" else "mermaid") ∧
    (validateMermaidSyntaxTool markup).renderer ≠ "none" := by
  unfold validateMermaidSyntaxTool
  by_cases hb : detectDiagramType markup ∈ BEAUTIFUL_MERMAID_TYPES <;>
    simp [List.elem_iff, hb]

/-- C10 witness: for the invalid markup `""` (detected type `"unknown"`),
the validate-only tool still reports renderer `"mermaid"`. -/
theorem validateTool_renderer_never_none_witness :
    (validateMermaidSyntaxTool "").renderer = "mermaid" ∧
    (validateMermaidSyntaxTool "").renderer ≠ "none" := by
  have h := validateTool_renderer_never_none ""
  refine ⟨?_, h.2⟩
  rw [h.1, if_neg (by decide)]

/-- C1: in the structured result of the `renderMermaidDiagram` tool, a
non-null `syntaxError` forces renderer `"none"` and the error flag (the
UI render effect returns immediately on renderer `"none"`, so no render is
attempted); a null `syntaxError` forces the renderer determined solely by
membership of the detected type in `BEAUTIFUL_MERMAID_TYPES`, never
`"none"`. -/
theorem renderTool_backend_consistent (markup : String) (title : Option String) :
    ((renderMermaidDiagramTool markup title).2.syntaxError ≠ none →
      (renderMermaidDiagramTool markup title).2.renderer = "none" ∧
      (renderMermaidDiagramTool markup title).1 = true) ∧
    ((renderMermaidDiagramTool markup title).2.syntaxError = none →
      (renderMermaidDiagramTool markup title).2.renderer =
        (if detectDiagramType markup ∈ BEAUTIFUL_MERMAID_TYPES
         then "beautiful-mermaid" else "mermaid") ∧
      (renderMermaidDiagramTool markup title).2.renderer ≠ "none") := by
  unfold renderMermaidDiagramTool
  cases hv : validateMermaidSyntax markup with
  | some e => simp
  | none =>
    by_cases hb : detectDiagramType markup ∈ BEAUTIFUL_MERMAID_TYPES <;>
      simp [List.elem_iff, hb]

/-- C1 witness: `"flowchart TD\n  A-->B"` validates, its type is in the
capability set, and the result carries renderer `"beautiful-mermaid"`. -/
theorem renderTool_backend_consistent_witness :
    (renderMermaidDiagramTool "flowchart TD\n  A-->B" none).2.renderer = "beautiful-mermaid" ∧
    (renderMermaidDiagramTool "flowchart TD\n  A-->B" none).2.renderer ≠ "none" := by
  have h := (renderTool_backend_consistent "flowchart TD\n  A-->B" none).2 (by decide)
  refine ⟨?_, h.2⟩
  rw [h.1, if_pos (by decide)]

/-- C2: `validateMermaidSyntax` returns a non-null message exactly when
the markup is empty after trimming or the (trimmed, lower-cased) first
line of the trimmed markup starts with none of the entries of
`KNOWN_DIAGRAM_KEYWORDS` (the table is matched case-insensitively, as all
its entries are lower-case); the empty case yields exactly
`"Empty diagram markup"`, and the `renderMermaidDiagram` result for `""`
carries renderer `"none"`. -/
theorem gate_rejects_iff (markup : String) :
    (( validateMermaidSyntax markup).isSome = true ↔
      (jsTrim markup.data = [] ∨
        ∀ kw ∈ KNOWN_DIAGRAM_KEYWORDS,
          leadsWith kw.data (normalisedFirstLine markup) = false)) ∧
    (jsTrim markup.data = [] →
      validateMermaidSyntax markup = some "Empty diagram markup") ∧
    (renderMermaidDiagramTool "" none).2.renderer = "none" := by
  refine ⟨?_, fun he => by simp [ validateMermaidSyntax, he], by decide⟩
  by_cases he : jsTrim markup.data = []
  · simp [ validateMermaidSyntax, he]
  · by_cases hr : KNOWN_DIAGRAM_KEYWORDS.any
        (fun kw => leadsWith kw.data (normalisedFirstLine markup)) = true
    · obtain ⟨kw, hkw, hlw⟩ := List.any_eq_true.mp hr
      simp only [ validateMermaidSyntax, normalisedFirstLine] at hr ⊢
      simp [List.isEmpty_iff, he, hr]
      exact ⟨kw, hkw, by simpa [normalisedFirstLine] using hlw⟩
    · have hall : ∀ kw ∈ KNOWN_DIAGRAM_KEYWORDS,
          leadsWith kw.data (normalisedFirstLine markup) = false := by
        intro kw hkw
        by_contra hb
        exact hr (List.any_eq_true.mpr ⟨kw, hkw, by simpa using hb⟩)
      simp only [ validateMermaidSyntax, normalisedFirstLine] at hr ⊢
      simp [List.isEmpty_iff, he, Bool.eq_false_iff.mpr hr]
      exact hall

/-- C2 witness: the empty markup is rejected with exactly
`"Empty diagram markup"`. -/
theorem gate_rejects_iff_witness :
    validateMermaidSyntax "" = some "Empty diagram markup" :=
  (gate_rejects_iff "").2.1 (by decide)

/-- A pattern is a contiguous part of `pat ++ r` when it is all of `pat`. -/
theorem leadsWith_append (p r : List Char) : leadsWith p (p ++ r) = true := by
  induction p with
  | nil => simp [leadsWith]
  | cons a as ih => simp [leadsWith, ih]

/-- `pat` occurs at the very front of `pat ++ post`. -/
theorem hasSubList_self_pre (pat post : List Char) :
    hasSubList pat (pat ++ post) = true := by
  cases pat with
  | nil => cases post <;> simp [hasSubList, leadsWith]
  | cons p ps =>
    simp only [hasSubList, List.cons_append, Bool.or_eq_true]
    exact Or.inl (leadsWith_append (p :: ps) post)

/-- An occurrence survives prepending. -/
theorem hasSubList_append_left (pat pre rest : List Char)
    (h : hasSubList pat rest = true) : hasSubList pat (pre ++ rest) = true := by
  induction pre with
  | nil => simpa using h
  | cons c cs ih => simp [hasSubList, ih]

/-- C7 (amended): whenever `validateMermaidSyntax` rejects non-blank
markup — the unrecognised-type case — the returned message contains,
verbatim, the trimmed offending first line (the first line of the trimmed
markup, itself trimmed), which is the line the gate examined. -/
theorem unrecognised_echo_trimmed_line (markup msg : String)
    (hne : jsTrim markup.data ≠ [])
    (hmsg : validateMermaidSyntax markup = some msg) :
    hasSubList (jsTrim (firstLineOf (jsTrim markup.data))) msg.data = true := by
  unfold validateMermaidSyntax at hmsg
  rw [if_neg (by simpa [List.isEmpty_iff] using hne)] at hmsg
  by_cases hr : (KNOWN_DIAGRAM_KEYWORDS.any fun kw =>
      leadsWith kw.data (jsToLower (jsTrim (firstLineOf (jsTrim markup.data))))) = true
  · rw [if_pos hr] at hmsg
    exact absurd hmsg (by simp)
  · rw [if_neg hr] at hmsg
    injection hmsg with hmsg
    subst hmsg
    simp only [String.data_append, List.append_assoc]
    apply hasSubList_append_left
    apply hasSubList_append_left
    apply hasSubList_append_left
    exact hasSubList_self_pre _ _

/-- C7 (amended) witness: for markup `"foobar"` the rejection message
contains `"foobar"` verbatim. -/
theorem unrecognised_echo_trimmed_line_witness :
    hasSubList (jsTrim (firstLineOf (jsTrim (String.data "foobar"))))
      (String.data ("Unrecognised diagram type. First line must start with a " ++
        "diagram keyword (e.g. flowchart, sequenceDiagram, classDiagram, " ++
        "erDiagram, gantt, …). Got: \"foobar\"")) = true :=
  unrecognised_echo_trimmed_line "foobar" _ (by decide) (by decide)

/-- C7 counterexample: for markup `" foobar"`, whose literal first line is
`" foobar"` (leading space included), the rejection message echoes only the
trimmed line `"foobar"`, so the literal first line of the markup does not
occur verbatim in the message. -/
theorem unrecognised_echo_verbatim_cex :
    jsTrim (String.data " foobar") ≠ [] ∧
    ( validateMermaidSyntax " foobar").isSome = true ∧
    hasSubList (firstLineOf (String.data " foobar"))
      (( validateMermaidSyntax " foobar").getD "").data = false := by
  exact ⟨by decide, by decide, by decide⟩

/-- C4: stale-render discard.  After render request `i1` and a later
request `i2` (issued before `i1` resolved), the final visible state equals
the state in which only `i2`'s outcome was applied, whichever of the two
resolutions arrives first — `i1`'s closure was cancelled by the effect
cleanup, so its result and error are dropped on arrival — and that final
state reflects `i2`'s outcome: its SVG installed on success, its message
displayed on failure. -/
theorem staleRender_discard (s : RenderState) (o1 o2 : ROutcome) :
    (rstep (rstep (rstep (rstep s .request) .request) (.resolve (s.latest + 2) o2))
        (.resolve (s.latest + 1) o1) =
      rstep (rstep (rstep s .request) .request) (.resolve (s.latest + 2) o2)) ∧
    (rstep (rstep (rstep (rstep s .request) .request) (.resolve (s.latest + 1) o1))
        (.resolve (s.latest + 2) o2) =
      rstep (rstep (rstep s .request) .request) (.resolve (s.latest + 2) o2)) ∧
    (∀ svg, o2 = .ok svg →
      (rstep (rstep (rstep s .request) .request)
        (.resolve (s.latest + 2) o2)).content = some svg ∧
      (rstep (rstep (rstep s .request) .request)
        (.resolve (s.latest + 2) o2)).errorMsg = none) ∧
    (∀ msg, o2 = .fail msg →
      (rstep (rstep (rstep s .request) .request)
        (.resolve (s.latest + 2) o2)).errorMsg = some msg) := by
  cases o1 <;> cases o2 <;> simp [rstep]

/-- C4 witness: from the idle state, request 1 then request 2; request 2
resolves with SVG `"svg2"`, then request 1's late resolution with `"svg1"`
is discarded: the visible content is `"svg2"` and no error is shown. -/
theorem staleRender_discard_witness :
    rstep (rstep (rstep (rstep ⟨0, none, none⟩ .request) .request)
        (.resolve 2 (.ok "svg2"))) (.resolve 1 (.ok "svg1")) =
      ⟨2, some "svg2", none⟩ := by
  have h := staleRender_discard ⟨0, none, none⟩ (.ok "svg1") (.ok "svg2")
  rw [h.1]
  decide

/-- C8: a drag gesture whose bounding box is smaller than 5 px in both
axes is treated as a click: `handleMouseUp` returns before querying any
element and issues no selection-change callback, leaving the current
selection unchanged. -/
theorem dragThreshold_no_callback (drag : DragRect) (overlay : ClientRect)
    (cands : List SvgCandidate)
    (hx : |max drag.startX drag.currentX - min drag.startX drag.currentX| < 5)
    (hy : |max drag.startY drag.currentY - min drag.startY drag.currentY| < 5) :
    handleMouseUp drag overlay cands = none := by
  simp only [handleMouseUp]
  rw [if_pos ⟨hx, hy⟩]

/-- C8 witness: a 3×3 px drag rectangle yields no callback even though a
candidate element lies inside it. -/
theorem dragThreshold_no_callback_witness :
    handleMouseUp ⟨0, 0, 3, 3⟩ ⟨0, 0, 400, 300⟩
      [⟨"node-1", ⟨1, 1, 2, 2⟩, "A", ElemKind.node⟩] = none :=
  dragThreshold_no_callback _ _ _ (by norm_num) (by norm_num)

/-- Every element of a `collectSelected` result stems from an overlapping
candidate. -/
theorem collectSelected_sound (bounds : ClientRect) (cands : List SvgCandidate) :
    ∀ seen se, se ∈ collectSelected bounds cands seen →
      ∃ c ∈ cands, se.id = c.id ∧ overlapsRect c.rect bounds = true := by
  induction cands with
  | nil => intro seen se h; simp [collectSelected] at h
  | cons el rest ih =>
    intro seen se h
    unfold collectSelected at h
    by_cases hc : (overlapsRect el.rect bounds && !(el.id == "") &&
        !(seen.contains el.id)) = true
    · rw [if_pos hc] at h
      rcases List.mem_cons.mp h with he | hrest
      · subst he
        refine ⟨el, List.mem_cons_self _ _, rfl, ?_⟩
        simp only [Bool.and_eq_true] at hc
        exact hc.1.1
      · obtain ⟨c, hcm, hcid, hov⟩ := ih _ _ hrest
        exact ⟨c, List.mem_cons_of_mem _ hcm, hcid, hov⟩
    · rw [if_neg hc] at h
      obtain ⟨c, hcm, hcid, hov⟩ := ih _ _ h
      exact ⟨c, List.mem_cons_of_mem _ hcm, hcid, hov⟩

/-- Under pairwise-distinct, non-empty candidate ids, a candidate's id
appears in the `collectSelected` result exactly when the candidate's box
overlaps the bounds. -/
theorem collectSelected_mem_iff (bounds : ClientRect) (cands : List SvgCandidate) :
    ∀ seen c, (cands.map SvgCandidate.id).Nodup → (∀ x ∈ cands, x.id ≠ "") →
      c ∈ cands → c.id ∉ seen →
      ((∃ se ∈ collectSelected bounds cands seen, se.id = c.id) ↔
        overlapsRect c.rect bounds = true) := by
  induction cands with
  | nil => intro seen c _ _ hc; simp at hc
  | cons el rest ih =>
    intro seen c hnd hne hc hseen
    simp only [List.map_cons, List.nodup_cons, List.mem_map] at hnd
    have helne : el.id ≠ "" := hne el (List.mem_cons_self _ _)
    unfold collectSelected
    rcases List.mem_cons.mp hc with rfl | hcr
    · have h1 : (c.id == "") = false := by
        simpa using helne
      have h2 : (seen.contains c.id) = false := by
        cases hy : seen.contains c.id with
        | false => rfl
        | true => exact absurd (List.elem_iff.mp hy) hseen
      by_cases hov : overlapsRect c.rect bounds = true
      · rw [if_pos (by simp [hov, h1, hseen])]
        simp only [hov, iff_true]
        exact ⟨_, List.mem_cons_self _ _, rfl⟩
      · have hov2 : overlapsRect c.rect bounds = false := Bool.eq_false_iff.mpr hov
        rw [if_neg (by simp [hov2])]
        constructor
        · rintro ⟨se, hse, hid⟩
          obtain ⟨c2, hc2m, hc2id, _⟩ := collectSelected_sound bounds rest _ _ hse
          exact absurd ⟨c2, hc2m, hc2id.symm.trans hid⟩ hnd.1
        · intro hx
          exact absurd hx hov
    · have hcne : c.id ≠ el.id := by
        intro hx
        exact hnd.1 ⟨c, hcr, hx⟩
      have hnotin2 : c.id ∉ el.id :: seen := by
        intro hx
        rcases List.mem_cons.mp hx with h | h
        · exact hcne h
        · exact hseen h
      by_cases hcond : (overlapsRect el.rect bounds && !(el.id == "") &&
          !(seen.contains el.id)) = true
      · rw [if_pos hcond]
        have hiff := ih (el.id :: seen) c hnd.2
          (fun x hx => hne x (List.mem_cons_of_mem _ hx)) hcr hnotin2
        rw [← hiff]
        constructor
        · rintro ⟨se, hse, hid⟩
          rcases List.mem_cons.mp hse with rfl | hrest
          · exact absurd hid (Ne.symm hcne)
          · exact ⟨se, hrest, hid⟩
        · rintro ⟨se, hse, hid⟩
          exact ⟨se, List.mem_cons_of_mem _ hse, hid⟩
      · rw [if_neg hcond]
        exact ih seen c hnd.2 (fun x hx => hne x (List.mem_cons_of_mem _ hx)) hcr hseen

/-- The result ids of `collectSelected` avoid `seen` and are pairwise
distinct. -/
theorem collectSelected_ids_nodup (bounds : ClientRect) (cands : List SvgCandidate) :
    ∀ seen, ((collectSelected bounds cands seen).map SelectedElement.id).Nodup ∧
      ∀ i ∈ (collectSelected bounds cands seen).map SelectedElement.id, i ∉ seen := by
  induction cands with
  | nil => intro seen; simp [collectSelected]
  | cons el rest ih =>
    intro seen
    unfold collectSelected
    by_cases hc : (overlapsRect el.rect bounds && !(el.id == "") &&
        !(seen.contains el.id)) = true
    · rw [if_pos hc]
      obtain ⟨hnd, hnotin⟩ := ih (el.id :: seen)
      have helnot : el.id ∉ (collectSelected bounds rest (el.id :: seen)).map
          SelectedElement.id := by
        intro hx
        exact hnotin el.id hx (List.mem_cons_self _ _)
      have helseen : el.id ∉ seen := by
        intro hx
        simp only [Bool.and_eq_true] at hc
        simp at hc
        exact hc.2 hx
      refine ⟨?_, ?_⟩
      · simp only [List.map_cons, List.nodup_cons]
        exact ⟨by simpa using helnot, hnd⟩
      · intro i hi
        simp only [List.map_cons, List.mem_cons] at hi
        rcases hi with rfl | hrest
        · exact helseen
        · intro hx
          exact hnotin i hrest (List.mem_cons_of_mem _ hx)
    · rw [if_neg hc]
      obtain ⟨hnd, hnotin⟩ := ih seen
      exact ⟨hnd, fun i hi => hnotin i hi⟩

/-- C6: the ids in any drag-selection result delivered to
`onSelectionChange` are pairwise distinct — an element appears at most
once even when matched by several marker queries. -/
theorem dragSelection_ids_nodup (drag : DragRect) (overlay : ClientRect)
    (cands : List SvgCandidate) (sel : List SelectedElement)
    (hsel : handleMouseUp drag overlay cands = some sel) :
    (sel.map SelectedElement.id).Nodup := by
  simp only [handleMouseUp] at hsel
  split at hsel
  · exact absurd hsel (by simp)
  · injection hsel with hsel
    subst hsel
    exact (collectSelected_ids_nodup _ cands []).1

/-- C6 witness: two overlapping candidates sharing id `"node-1"` produce a
result containing exactly one `SelectedElement` with that id. -/
theorem dragSelection_ids_nodup_witness :
    handleMouseUp ⟨0, 0, 50, 50⟩ ⟨0, 0, 400, 300⟩
      [⟨"node-1", ⟨10, 10, 20, 20⟩, "A", ElemKind.node⟩,
       ⟨"node-1", ⟨12, 12, 22, 22⟩, "A", ElemKind.node⟩] =
      some [⟨"node-1", "A", ElemKind.node⟩] ∧
    (([⟨"node-1", "A", ElemKind.node⟩] : List SelectedElement).map
      SelectedElement.id).Nodup := by
  have heq : handleMouseUp ⟨0, 0, 50, 50⟩ ⟨0, 0, 400, 300⟩
      [⟨"node-1", ⟨10, 10, 20, 20⟩, "A", ElemKind.node⟩,
       ⟨"node-1", ⟨12, 12, 22, 22⟩, "A", ElemKind.node⟩] =
      some [⟨"node-1", "A", ElemKind.node⟩] := by
    simp only [handleMouseUp, collectSelected, overlapsRect]
    norm_num
    decide
  exact ⟨heq, dragSelection_ids_nodup _ _ _ _ heq⟩

/-- C5: under pairwise-distinct non-empty candidate ids, a candidate is in
the drag-selection result exactly when its box and the drag rectangle
overlap strictly on both axes (`left < right`, `right > left`,
`top < bottom`, `bottom > top` in client coordinates); edge contact is a
zero-width overlap and fails the strict test, while any partial overlap
passes it. -/
theorem dragSelection_overlap_iff (drag : DragRect) (overlay : ClientRect)
    (cands : List SvgCandidate) (sel : List SelectedElement)
    (hsel : handleMouseUp drag overlay cands = some sel)
    (hids : (cands.map SvgCandidate.id).Nodup)
    (hne : ∀ c ∈ cands, c.id ≠ "") :
    ∀ c ∈ cands,
      ((∃ se ∈ sel, se.id = c.id) ↔
        (c.rect.left < overlay.left + max drag.startX drag.currentX ∧
         c.rect.right > overlay.left + min drag.startX drag.currentX ∧
         c.rect.top < overlay.top + max drag.startY drag.currentY ∧
         c.rect.bottom > overlay.top + min drag.startY drag.currentY)) := by
  intro c hc
  simp only [handleMouseUp] at hsel
  split at hsel
  · exact absurd hsel (by simp)
  · injection hsel with hsel
    subst hsel
    rw [collectSelected_mem_iff _ cands [] c hids hne hc (by simp)]
    simp only [overlapsRect, Bool.and_eq_true, decide_eq_true_eq]
    constructor
    · rintro ⟨⟨⟨h1, h2⟩, h3⟩, h4⟩
      exact ⟨h1, h2, h3, h4⟩
    · rintro ⟨h1, h2, h3, h4⟩
      exact ⟨⟨⟨h1, h2⟩, h3⟩, h4⟩

/-- C5 witness: with a 50×50 drag rectangle at the origin, the candidate
box (10,10)–(20,20) is selected while the box (60,60)–(70,70) is not. -/
theorem dragSelection_overlap_iff_witness :
    (∃ se ∈ [({ id := "a", label := "A", kind := ElemKind.node } : SelectedElement)],
      se.id = "a") ∧
    ¬ (∃ se ∈ [({ id := "a", label := "A", kind := ElemKind.node } : SelectedElement)],
      se.id = "b") := by
  have heq : handleMouseUp ⟨0, 0, 50, 50⟩ ⟨0, 0, 400, 300⟩
      [⟨"a", ⟨10, 10, 20, 20⟩, "A", ElemKind.node⟩,
       ⟨"b", ⟨60, 60, 70, 70⟩, "B", ElemKind.node⟩] =
      some [⟨"a", "A", ElemKind.node⟩] := by
    simp only [handleMouseUp, collectSelected, overlapsRect]
    norm_num
    decide
  have h := dragSelection_overlap_iff ⟨0, 0, 50, 50⟩ ⟨0, 0, 400, 300⟩
      [⟨"a", ⟨10, 10, 20, 20⟩, "A", ElemKind.node⟩,
       ⟨"b", ⟨60, 60, 70, 70⟩, "B", ElemKind.node⟩]
      [⟨"a", "A", ElemKind.node⟩] heq (by decide) (by decide)
  constructor
  · exact (h _ (List.mem_cons_self _ _)).mpr (by norm_num)
  · intro hx
    have := (h ⟨"b", ⟨60, 60, 70, 70⟩, "B", ElemKind.node⟩
        (by simp)).mp hx
    norm_num at this

/-- `addHighlight` never changes the ids (or the order) of the tree. -/
theorem addHighlight_map_id (t : List TreeEl) (i : String) :
    (addHighlight t i).map TreeEl.id = t.map TreeEl.id := by
  induction t with
  | nil => rfl
  | cons e rest ih =>
    by_cases h : e.id = i <;> simp [addHighlight, h, ih]

/-- With pairwise-distinct tree ids, highlighting the first matching
element is highlighting every matching element. -/
theorem addHighlight_eq_map (t : List TreeEl) (i : String)
    (h : (t.map TreeEl.id).Nodup) :
    addHighlight t i =
      t.map fun e => if e.id = i then ⟨e.id, true⟩ else e := by
  induction t with
  | nil => rfl
  | cons e rest ih =>
    simp only [List.map_cons, List.nodup_cons, List.mem_map] at h
    by_cases hi : e.id = i
    · have hrest : ∀ x ∈ rest,
          (if x.id = i then (⟨x.id, true⟩ : TreeEl) else x) = x := by
        intro x hx
        rw [if_neg]
        intro hxi
        exact h.1 ⟨x, hx, hxi.trans hi.symm⟩
      calc addHighlight (e :: rest) i
          = { e with selectedClass := true } :: rest := by
            simp [addHighlight, hi]
        _ = (e :: rest).map fun x => if x.id = i then ⟨x.id, true⟩ else x := by
            simp only [List.map_cons, if_pos hi]
            rw [(List.map_congr_left hrest).trans (List.map_id' rest)]
    · calc addHighlight (e :: rest) i
          = e :: addHighlight rest i := by simp [addHighlight, hi]
        _ = (e :: rest).map fun x => if x.id = i then ⟨x.id, true⟩ else x := by
            simp only [List.map_cons, if_neg hi]
            rw [ih h.2]

/-- Folding `addHighlight` over the selection marks, in a tree with
pairwise-distinct ids, exactly the elements whose id occurs in the
selection. -/
theorem foldl_addHighlight (sels : List SelectedElement) (s : List TreeEl)
    (h : (s.map TreeEl.id).Nodup) :
    sels.foldl (fun acc sel => addHighlight acc sel.id) s =
      s.map fun e =>
        if sels.any (fun sel => sel.id == e.id) then ⟨e.id, true⟩ else e := by
  induction sels generalizing s with
  | nil =>
    simp only [List.foldl_nil, List.any_nil, if_neg Bool.false_ne_true]
    exact (List.map_id' s).symm
  | cons sel rest ih =>
    rw [List.foldl_cons, addHighlight_eq_map s sel.id h]
    have hids : ((s.map fun e => if e.id = sel.id then (⟨e.id, true⟩ : TreeEl)
        else e).map TreeEl.id) = s.map TreeEl.id := by
      rw [List.map_map]
      apply List.map_congr_left
      intro e _
      by_cases hc : e.id = sel.id <;> simp [hc]
    rw [ih _ (by rw [hids]; exact h), List.map_map]
    apply List.map_congr_left
    intro e _
    by_cases h1 : e.id = sel.id
    · simp only [Function.comp_apply]
      rw [if_pos h1]
      dsimp only
      rw [ite_self,
        if_pos (show ((sel :: rest).any fun q => q.id == e.id) = true by simp [h1])]
    · simp only [Function.comp_apply]
      rw [if_neg h1]
      have hb : (sel.id == e.id) = false := beq_eq_false_iff_ne.mpr (Ne.symm h1)
      simp only [List.any_cons, hb, Bool.false_or]

/-- C9: when the selection changes, the highlight effect first strips the
highlight class from every element, then marks exactly those elements of
the visual tree whose id occurs in the current selection (assuming the
tree's ids are distinct, as DOM ids are); a selected id absent from the
tree is silently skipped — the synchronisation is total and affects no
other element. -/
theorem syncHighlights_exact (t : List TreeEl) (sels : List SelectedElement)
    (h : (t.map TreeEl.id).Nodup) :
    syncHighlights t sels =
      t.map fun e => ⟨e.id, sels.any fun sel => sel.id == e.id⟩ := by
  unfold syncHighlights clearHighlights
  have hids : ((t.map fun e => { e with selectedClass := false }).map TreeEl.id) =
      t.map TreeEl.id := by
    rw [List.map_map]
    rfl
  rw [foldl_addHighlight _ _ (by rw [hids]; exact h), List.map_map]
  apply List.map_congr_left
  intro e _
  simp only [Function.comp_apply]
  cases hc : (sels.any fun sel => sel.id == e.id) with
  | true => rw [if_pos rfl]
  | false => rw [if_neg (by simp)]

/-- C9 witness: tree `[a (highlighted), b]` with selection `[b, zz]`
(where `zz` matches nothing) ends with exactly `b` highlighted, `a`
cleared, and no failure for the missing id. -/
theorem syncHighlights_exact_witness :
    syncHighlights [⟨"a", true⟩, ⟨"b", false⟩]
      [⟨"b", "B", ElemKind.node⟩, ⟨"zz", "Z", ElemKind.node⟩] =
      [⟨"a", false⟩, ⟨"b", true⟩] := by
  have h := syncHighlights_exact [⟨"a", true⟩, ⟨"b", false⟩]
      [⟨"b", "B", ElemKind.node⟩, ⟨"zz", "Z", ElemKind.node⟩] (by decide)
  rw [h]
  decide

end MermaidMcp
